import Mathlib

/-!
Shallow embedding of the extraction pipeline of the Court-Data Fetcher
repository (court_scraper.py), together with theorems settling the spec
claims about it.  Pure string processing (parsing of the result page,
date normalization, PDF-link deduplication, content-type validation of
downloads) is embedded as executable functions over `String` / `List Char`;
the stateful retry loop of `scrape_case_data` is embedded as a step
function over per-attempt behaviours that records an event trace.
-/

namespace CourtData

/-- Whitespace characters stripped by Python str.strip(). -/
def isPySpace (c : Char) : Bool :=
  c = ' ' || c = '\t' || c = '\n' || c = '\r' || c = '\x0b' || c = '\x0c'

/-- Model of Python str.strip(): drop leading and trailing whitespace. -/
def stripL (l : List Char) : List Char :=
  ((l.dropWhile isPySpace).reverse.dropWhile isPySpace).reverse

/-- Model of str.upper on a whole string (ASCII letters, as used by the scraper). -/
def upperStr (s : String) : String := String.mk (s.data.map Char.toUpper)

/-- Model of str.lower on a whole string. -/
def lowerStr (s : String) : String := String.mk (s.data.map Char.toLower)

/-- Model of str.strip on a String. -/
def stripStr (s : String) : String := String.mk (stripL s.data)

/-- Boolean test that pat is a leading segment of l. -/
def startsWithL : List Char → List Char → Bool
  | [], _ => true
  | _ :: _, [] => false
  | p :: ps, c :: cs => if p = c then startsWithL ps cs else false

/-- Boolean test that pat occurs as a contiguous segment of l
(the semantics of the Python `in` operator on strings). -/
def containsSubL (pat : List Char) : List Char → Bool
  | [] => startsWithL pat []
  | c :: rest => startsWithL pat (c :: rest) || containsSubL pat rest

/-- Substring containment on Strings, Python `pat in hay`. -/
def containsSub (hay pat : String) : Bool := containsSubL pat.data hay.data

/-- The parties separator the scraper splits on (`"VS."`). -/
def vsSep : List Char := ['V', 'S', '.']

/-- Model of Python str.split("VS.") specialised to the separator used at the
only call site: leftmost, non-overlapping occurrences delimit the pieces. -/
def splitVS : List Char → List (List Char)
  | [] => [[]]
  | 'V' :: 'S' :: '.' :: rest => [] :: splitVS rest
  | c :: rest =>
    match splitVS rest with
    | [] => [[c]]
    | p :: ps => (c :: p) :: ps

/-- Model of Python str.split(sep) for a single-character separator,
as used for `"15/03/2023".split('/')`. -/
def splitChar (sep : Char) : List Char → List (List Char)
  | [] => [[]]
  | c :: rest =>
    if c = sep then [] :: splitChar sep rest
    else
      match splitChar sep rest with
      | [] => [[c]]
      | p :: ps => (c :: p) :: ps

/-- The scraper's parties parsing (court_scraper.py lines 384-391): uppercase
the column text; if it contains "VS." split on it and strip the first two
pieces, otherwise the whole text is the plaintiff and the defendant is "N/A". -/
def parsePartiesText (t : String) : String × String :=
  let up := upperStr t
  if containsSub up "VS." = true then
    let parts := splitVS up.data
    (String.mk (stripL ((parts[0]?).getD [])), String.mk (stripL ((parts[1]?).getD [])))
  else
    (t, "N/A")

/-- Test that a character list starts with the regex shape `\d{2}/\d{2}/\d{4}`
(court_scraper.py line 395). -/
def dateShapedAt (l : List Char) : Bool :=
  match l with
  | d1 :: d2 :: s1 :: m1 :: m2 :: s2 :: y1 :: y2 :: y3 :: y4 :: _ =>
    d1.isDigit && d2.isDigit && decide (s1 = '/') && m1.isDigit && m2.isDigit &&
      decide (s2 = '/') && y1.isDigit && y2.isDigit && y3.isDigit && y4.isDigit
  | _ => false

/-- Model of `re.findall(r'\d{2}/\d{2}/\d{4}', s)`: scan left to right, taking
non-overlapping leftmost matches of the fixed-width date pattern. -/
def findDatesL : List Char → List (List Char)
  | d1 :: d2 :: s1 :: m1 :: m2 :: s2 :: y1 :: y2 :: y3 :: y4 :: rest =>
    if dateShapedAt (d1 :: d2 :: s1 :: m1 :: m2 :: s2 :: y1 :: y2 :: y3 :: y4 :: rest) = true then
      [d1, d2, s1, m1, m2, s2, y1, y2, y3, y4] :: findDatesL rest
    else
      findDatesL (d2 :: s1 :: m1 :: m2 :: s2 :: y1 :: y2 :: y3 :: y4 :: rest)
  | _ :: rest => findDatesL rest
  | [] => []

/-- Date-shaped substrings of the listing column, as Strings. -/
def findDates (s : String) : List String := (findDatesL s.data).map String.mk

/-- The scraper's DD/MM/YYYY to YYYY-MM-DD rewrite (court_scraper.py
lines 404-410): split on '/' and reassemble as parts[2]-parts[1]-parts[0]. -/
def convertDate (d : String) : String :=
  let parts := splitChar '/' d.data
  String.mk (((parts[2]?).getD []) ++ ['-'] ++ ((parts[1]?).getD []) ++ ['-'] ++ ((parts[0]?).getD []))

/-- One table cell (a td element) of the results table: its stripped text
content and the href targets of its anchor descendants. -/
structure Cell where
  text : String
  hrefs : List String
deriving DecidableEq, Repr

/-- The post-submission page as the parser consumes it: the raw markup
string (used for the no-record phrase check), the results table located by
the selector cascade (rows of cells), if any, and the href targets of every
anchor on the page (used by the page-wide PDF scan). -/
structure Markup where
  raw : String
  table : Option (List (List Cell))
  allHrefs : List String
deriving DecidableEq, Repr

/-- A discovered order link (court_scraper.py lines 419-424). -/
structure OrderLink where
  date : Option String
  typ : String
  pdf_url : String
deriving DecidableEq, Repr

/-- The payload of a successful parse (court_scraper.py lines 426-437). -/
structure CaseData where
  plaintiff : String
  defendant : String
  filing_date : Option String
  next_hearing : Option String
  status : String
  orders : List OrderLink
  raw_html : String
deriving DecidableEq, Repr

/-- The tagged outcome of the parser and of a whole scrape: the code's
`{'success': True, ...}` and `{'success': False, 'error': ...}` dicts. -/
inductive ParseResult where
  | success (d : CaseData)
  | failure (error : String)
deriving DecidableEq, Repr

/-- Whether a ParseResult is the success variant. -/
def ParseResult.isSuccess : ParseResult → Bool
  | .success _ => true
  | .failure _ => false

/-- The filing date of a successful result. -/
def ParseResult.filingOf : ParseResult → Option String
  | .success d => d.filing_date
  | .failure _ => none

/-- The next-hearing date of a successful result. -/
def ParseResult.hearingOf : ParseResult → Option String
  | .success d => d.next_hearing
  | .failure _ => none

/-- The fixed "no record" phrases checked against the lowercased markup
(court_scraper.py line 352). -/
def noRecordPhrases : List String := ["no record found", "no data found", "record not found"]

/-- Whether the markup contains one of the no-record phrases, case-insensitively. -/
def hasNoRecordPhrase (html : String) : Bool :=
  noRecordPhrases.any (fun p => containsSub (lowerStr html) p)

/-- The scraper's base URL. -/
def base_url : String := "https://delhihighcourt.nic.in"

/-- Whether an href target names a PDF (`'.pdf' in href.lower()`). -/
def hrefHasPdf (href : String) : Bool := containsSub (lowerStr href) ".pdf"

/-- Model of urllib.parse.urljoin against the scraper's path-less base URL,
for the cases the scraper exercises: absolute URLs pass through, root-relative
and relative paths are attached to the base. -/
def urljoinModel (base href : String) : String :=
  if containsSub href "://" = true then href
  else if startsWithL ['/'] href.data = true then base ++ href
  else base ++ "/" ++ href

/-- PDF links collected from the parsed row's cells (extraction method 1,
court_scraper.py lines 452-459), resolved against the base URL. -/
def mainTablePdfHrefs (cols : List Cell) : List String :=
  ((cols.foldr (fun c acc => c.hrefs ++ acc) []).filter hrefHasPdf).map (urljoinModel base_url)

/-- The Python dedup-preserving-order loop (court_scraper.py lines 476-479). -/
def dedupKeepFirst (l : List String) : List String :=
  l.foldl (fun acc u => if u ∈ acc then acc else acc ++ [u]) []

/-- Specification-side rewriting of first-occurrence dedup: keep the head and
recursively dedup the tail with later copies of the head removed. -/
def keepFirst : List String → List String
  | [] => []
  | x :: xs => x :: keepFirst (xs.filter (fun y => decide (y ≠ x)))
termination_by l => l.length
decreasing_by
  have := List.length_filter_le (fun y => decide (y ≠ x)) xs
  simp only [List.length_cons]
  omega

/-- The full PDF extraction (court_scraper.py lines 446-485): method 1 reads
the row's cells; method 2, used only when method 1 found nothing, takes the
URLs the live session's orders page yields; method 3, used only when both
found nothing, scans every anchor of the page; the result is deduplicated
preserving first-seen order. -/
def extractPdfsEnhanced (cols : List Cell) (ordersPagePdfs : List String)
    (allHrefs : List String) : List String :=
  let m1 := mainTablePdfHrefs cols
  let m2 := if m1.isEmpty then m1 ++ ordersPagePdfs else m1
  let m3 := if m2.isEmpty then m2 ++ ((allHrefs.filter hrefHasPdf).map (urljoinModel base_url))
            else m2
  dedupKeepFirst m3

/-- The first data row's cells: `data_rows[1].find_all('td')`. -/
def firstDataRowCols (m : Markup) : List Cell :=
  match m.table with
  | some rows => (rows[1]?).getD []
  | none => []

/-- The parties column text: `cols[2].get_text(strip=True) if len(cols) > 2 else ""`. -/
def partiesTextOf (m : Markup) : String :=
  match (firstDataRowCols m)[2]? with
  | some c => c.text
  | none => ""

/-- The listing column text: `cols[3].get_text(strip=True) if len(cols) > 3 else ""`. -/
def listingTextOf (m : Markup) : String :=
  match (firstDataRowCols m)[3]? with
  | some c => c.text
  | none => ""

/-- The result parser `_parse_case_results_enhanced` (court_scraper.py lines
346-444).  Besides the markup it receives the list of PDF URLs the live
session's orders page would yield, because extraction method 2 navigates the
driver away from the parsed page. -/
def parseCaseResults (m : Markup) (ordersPagePdfs : List String) : ParseResult :=
  if hasNoRecordPhrase m.raw = true then
    .failure "No record found for the specified case."
  else
    match m.table with
    | none => .failure "Results table not found on the page."
    | some rows =>
      if rows.length < 2 then .failure "No data rows found in the results table."
      else
        let pd := parsePartiesText (partiesTextOf m)
        let dates := findDates (listingTextOf m)
        let filing := dates.head?.map convertDate
        let nextHearing := (dates[1]?).map convertDate
        let pdfs := extractPdfsEnhanced (firstDataRowCols m) ordersPagePdfs m.allHrefs
        let orders := pdfs.map (fun u => OrderLink.mk filing "Order" u)
        .success (CaseData.mk pd.1 pd.2 filing nextHearing "Active" orders m.raw)

/-- Whether an element's text qualifies as a CAPTCHA challenge
(court_scraper.py line 256): stripped text nonempty, purely numeric, length
at least 3. -/
def isCaptchaCandidate (t : String) : Bool :=
  let s := stripL t.data
  !s.isEmpty && s.all Char.isDigit && decide (3 ≤ s.length)

/-- The first qualifying CAPTCHA element text among the candidate elements,
already stripped, mirroring the selector scan of court_scraper.py lines 251-265. -/
def findCaptchaText (texts : List String) : Option String :=
  (texts.find? isCaptchaCandidate).map (fun t => String.mk (stripL t.data))

/-- The characters of the literal "&lt;span" head of the fallback regex. -/
def spanOpen : List Char := ['<', 's', 'p', 'a', 'n']

/-- The characters of the literal closing tag of the fallback regex. -/
def spanClose : List Char := ['<', '/', 's', 'p', 'a', 'n', '>']

/-- Match of the regex `<span[^>]*>(\d{3,6})</span>` anchored at the head of
l, returning the captured digit group. -/
def matchSpanNumAt (l : List Char) : Option (List Char) :=
  if startsWithL spanOpen l = true then
    match (l.drop 5).dropWhile (fun c => !decide (c = '>')) with
    | [] => none
    | _ :: rest2 =>
      let ds := rest2.takeWhile Char.isDigit
      if 3 ≤ ds.length ∧ ds.length ≤ 6 ∧ startsWithL spanClose (rest2.drop ds.length) = true
      then some ds
      else none
  else none

/-- The first match of the raw-markup CAPTCHA fallback regex
(court_scraper.py line 272): `numeric_patterns[0]` of the findall. -/
def findSpanNumber : List Char → Option (List Char)
  | [] => none
  | c :: rest =>
    match matchSpanNumAt (c :: rest) with
    | some d => some d
    | none => findSpanNumber rest

/-- The outcome of the CAPTCHA stage: whether it reported success, and what
text, if any, it wrote into the CAPTCHA input. -/
structure CaptchaStep where
  ok : Bool
  wrote : Option String
deriving DecidableEq, Repr

/-- The CAPTCHA handler `_handle_captcha_enhanced` (court_scraper.py lines
229-313): element scan first, then the raw-markup regex fallback; if neither
finds a challenge it succeeds without writing; if one does, it succeeds only
if a CAPTCHA input could be filled with the detected digits. -/
def handleCaptchaEnhanced (elementTexts : List String) (pageSource : String)
    (inputFillable : Bool) : CaptchaStep :=
  match findCaptchaText elementTexts with
  | some t => if inputFillable then ⟨true, some t⟩ else ⟨false, none⟩
  | none =>
    match findSpanNumber pageSource.data with
    | some d => if inputFillable then ⟨true, some (String.mk d)⟩ else ⟨false, none⟩
    | none => ⟨true, none⟩

/-- The PDF media type prefix the downloader requires. -/
def pdfMime : String := "application/pdf"

/-- The observable outcome of the HTTP GET inside download_pdf: either the
request raised, or a response with status, optional content-type header and
body bytes. -/
inductive FetchOutcome where
  | exc
  | resp (status : Nat) (contentType : Option String) (content : List Nat)
deriving DecidableEq, Repr

/-- The downloader `download_pdf` (court_scraper.py lines 529-550): any
request exception or HTTP error status yields None; bytes are returned only
when the lowercased declared content type starts with application/pdf. -/
def download_pdf (o : FetchOutcome) : Option (List Nat) :=
  match o with
  | .exc => none
  | .resp status ct content =>
    if 400 ≤ status then none
    else if startsWithL pdfMime.data (lowerStr (ct.getD "")).data = true then some content
    else none

/-- How one call of `_setup_driver` (court_scraper.py lines 38-64) can end:
success; an exception raised before the webdriver.Chrome object was assigned
to self.driver; or an exception raised after the assignment (for example by
the execute_script call of line 58), which returns False while leaving a
live driver in self.driver. -/
inductive SetupOutcome where
  | ok
  | failNoDriver
  | failWithDriver
deriving DecidableEq, Repr

/-- How the navigation step of an attempt (driver.get plus the body wait,
court_scraper.py lines 88-94) can end: success, a TimeoutException or
NoSuchElementException, or any other exception carrying its message. -/
inductive NavOutcome where
  | ok
  | timeoutExc
  | otherExc (msg : String)
deriving DecidableEq, Repr

/-- Everything outside the scraper that determines how one retry attempt of
scrape_case_data unfolds: the driver-setup outcome, the navigation outcome,
whether form filling succeeds, what the CAPTCHA stage sees (candidate element
texts, page source, whether a CAPTCHA input is fillable), whether submission
succeeds, the page markup handed to the parser, and the PDF URLs the live
session's orders page would yield. -/
structure AttemptBehavior where
  setup : SetupOutcome
  nav : NavOutcome
  fillOk : Bool
  captchaTexts : List String
  captchaSource : String
  captchaInputFillable : Bool
  submitOk : Bool
  markup : Markup
  ordersPagePdfs : List String
deriving Repr

/-- Observable events of a scrape run, in program order. -/
inductive Ev where
  | setupTry (success : Bool)
  | navigate
  | waitSleep (secs : Nat)
  | fillStage
  | captchaStage
  | submitStage
  | parseStage
  | closeDriver
  | backoffSleep (secs : Nat)
deriving DecidableEq, Repr

/-- How one iteration of the retry loop ends: a return statement fired, a
continue statement fired (skipping the inter-retry sleep of line 139), or an
exception was caught and the iteration fell through to the inter-retry sleep. -/
inductive AttemptExit where
  | returned (r : ParseResult)
  | continued
  | fellThrough
deriving DecidableEq, Repr

/-- Result of one retry-loop iteration: its exit, the events it emitted, and
whether self.driver holds a live session afterwards. -/
structure AttemptOut where
  exit : AttemptExit
  events : List Ev
  driverLive : Bool
deriving Repr

/-- The effect of `_close_driver` (court_scraper.py lines 66-74) on
self.driver: exceptions from quit are swallowed and the field is cleared, so
the handle is dead afterwards no matter what it was. -/
def closeDriverState : Bool → Bool := fun _ => false

/-- One iteration of the retry loop of scrape_case_data (court_scraper.py
lines 80-139), given the behaviour of the world, whether this is the final
attempt, the configured request delay, and whether a live driver is left in
self.driver from before.  The try/finally places a closeDriver event on
every exit path of the try block; the setup-failure paths continue without
entering the try block. -/
def runAttempt (b : AttemptBehavior) (isLast : Bool) (reqDelay : Nat)
    (driverLive : Bool) : AttemptOut :=
  match b.setup with
  | .failNoDriver => ⟨.continued, [.setupTry false], driverLive⟩
  | .failWithDriver => ⟨.continued, [.setupTry false], true⟩
  | .ok =>
    match b.nav with
    | .timeoutExc =>
      if isLast then
        ⟨.returned (.failure "Failed to find required elements on the page"),
          [.setupTry true, .navigate, .closeDriver], false⟩
      else ⟨.fellThrough, [.setupTry true, .navigate, .closeDriver], false⟩
    | .otherExc msg =>
      if isLast then
        ⟨.returned (.failure msg), [.setupTry true, .navigate, .closeDriver], false⟩
      else ⟨.fellThrough, [.setupTry true, .navigate, .closeDriver], false⟩
    | .ok =>
      let pre : List Ev := [.setupTry true, .navigate, .waitSleep 3, .fillStage]
      if b.fillOk = false then ⟨.continued, pre ++ [.closeDriver], false⟩
      else
        let cap := handleCaptchaEnhanced b.captchaTexts b.captchaSource b.captchaInputFillable
        if cap.ok = false then ⟨.continued, pre ++ [.captchaStage, .closeDriver], false⟩
        else if b.submitOk = false then
          ⟨.continued, pre ++ [.captchaStage, .submitStage, .closeDriver], false⟩
        else
          let evs := pre ++ [.captchaStage, .submitStage, .waitSleep reqDelay, .parseStage,
            .closeDriver]
          match parseCaseResults b.markup b.ordersPagePdfs with
          | .success d => ⟨.returned (.success d), evs, false⟩
          | .failure e =>
            if isLast then ⟨.returned (.failure e), evs, false⟩
            else ⟨.continued, evs, false⟩

/-- Result of a whole scrape run: the returned ParseResult, the event trace,
and whether a live driver remains in self.driver at the end. -/
structure ScrapeOut where
  result : ParseResult
  events : List Ev
  driverLive : Bool
deriving Repr

/-- The retry loop of scrape_case_data, counting down the remaining attempts.
An attempt that continues moves straight to the next iteration; an attempt
that fell through an exception handler sleeps the fixed five-second backoff
of line 139 first; exhausting the loop returns the generic failure of
line 141. -/
def scrapeGo (reqDelay : Nat) (behaviors : Nat → AttemptBehavior) :
    Nat → Nat → Bool → ScrapeOut
  | _, 0, drv => ⟨.failure "All scraping attempts failed", [], drv⟩
  | attempt, fuel + 1, drv =>
    let a := runAttempt (behaviors attempt) (decide (fuel = 0)) reqDelay drv
    match a.exit with
    | .returned r => ⟨r, a.events, a.driverLive⟩
    | .continued =>
      let rest := scrapeGo reqDelay behaviors (attempt + 1) fuel a.driverLive
      ⟨rest.result, a.events ++ rest.events, rest.driverLive⟩
    | .fellThrough =>
      let rest := scrapeGo reqDelay behaviors (attempt + 1) fuel a.driverLive
      ⟨rest.result, a.events ++ [.backoffSleep 5] ++ rest.events, rest.driverLive⟩

/-- The entry point scrape_case_data (court_scraper.py lines 76-141) with
max_retries and request_delay as configuration and self.driver initially
empty. -/
def scrape_case_data (maxRetries reqDelay : Nat)
    (behaviors : Nat → AttemptBehavior) : ScrapeOut :=
  scrapeGo reqDelay behaviors 0 maxRetries false

/-- C8: download returns the response bytes only when the response's declared
content type begins with the PDF media type; for every response whose content
type does not (e.g. text/html), it returns the failure value and the bytes
are never returned to the caller. -/
theorem C8_download_requires_pdf_content_type :
    (∀ (status : Nat) (ct : Option String) (content : List Nat),
       startsWithL pdfMime.data (lowerStr (ct.getD "")).data = false →
       download_pdf (.resp status ct content) = none)
    ∧ (∀ (o : FetchOutcome) (bytes : List Nat),
       download_pdf o = some bytes →
       ∃ status ct content, o = .resp status ct content ∧ bytes = content ∧
         startsWithL pdfMime.data (lowerStr (ct.getD "")).data = true) := by
  have heq : ∀ (status : Nat) (ct : Option String) (content : List Nat),
      download_pdf (.resp status ct content)
        = if 400 ≤ status then none
          else if startsWithL pdfMime.data (lowerStr (ct.getD "")).data = true then some content
          else none := fun _ _ _ => rfl
  constructor
  · intro status ct content h
    rw [heq]
    split
    · rfl
    · rw [h]
      simp
  · intro o bytes h
    cases o with
    | exc => exact Option.noConfusion h
    | resp status ct content =>
      rw [heq] at h
      split at h
      · exact Option.noConfusion h
      · split at h
        · rename_i hct
          exact ⟨status, ct, content, rfl, (Option.some.inj h).symm, hct⟩
        · exact Option.noConfusion h

/-- C8 witness: a mock response with content-type text/html is rejected and
its bytes are not returned, per the spec scenario. -/
theorem C8_download_witness :
    download_pdf (.resp 200 (some "text/html") [37, 80, 68, 70]) = none :=
  C8_download_requires_pdf_content_type.1 200 (some "text/html") [37, 80, 68, 70] (by decide)

/-- A result page whose first data row has no PDF anchor at all: the
extraction falls through to the orders-page method. -/
def c1NoPdfMarkup : Markup :=
  ⟨"<html><table></table></html>", some [[], [⟨"A VS. B", []⟩]], []⟩

/-- C1 counterexample: the same markup parsed against two different live
orders-page session states yields different ExtractionResults, so the parse
does depend on state outside the markup argument. -/
theorem C1_counterexample :
    parseCaseResults c1NoPdfMarkup []
      ≠ parseCaseResults c1NoPdfMarkup ["https://delhihighcourt.nic.in/o1.pdf"] := by
  decide

/-- C1 (amended): parsing is deterministic in the markup together with the
orders-page session state; whenever the first data row's cells contain at
least one PDF anchor, the result is independent of the session state, i.e.
of everything outside the markup argument. -/
theorem C1_parse_state_independent (m : Markup) (s1 s2 : List String)
    (h : mainTablePdfHrefs (firstDataRowCols m) ≠ []) :
    parseCaseResults m s1 = parseCaseResults m s2 := by
  have hne : (mainTablePdfHrefs (firstDataRowCols m)).isEmpty = false := by
    cases hm : mainTablePdfHrefs (firstDataRowCols m) with
    | nil => exact absurd hm h
    | cons a l => rfl
  have hext : extractPdfsEnhanced (firstDataRowCols m) s1 m.allHrefs
      = extractPdfsEnhanced (firstDataRowCols m) s2 m.allHrefs := by
    unfold extractPdfsEnhanced
    simp only [hne, Bool.false_eq_true, if_false]
  unfold parseCaseResults
  rw [hext]

/-- A result page whose first data row does carry a PDF anchor. -/
def c1PdfMarkup : Markup :=
  ⟨"<html><table></table></html>", some [[], [⟨"A VS. B", ["/orders/a.pdf"]⟩]], []⟩

/-- C1 witness: with a PDF anchor in the row, two different session states
give the identical parse result. -/
theorem C1_parse_state_independent_witness :
    parseCaseResults c1PdfMarkup []
      = parseCaseResults c1PdfMarkup ["https://delhihighcourt.nic.in/o1.pdf"] :=
  C1_parse_state_independent c1PdfMarkup [] ["https://delhihighcourt.nic.in/o1.pdf"]
    (by decide)

/-- C10: a markup whose results table has at least 2 rows but whose first
data row has fewer than 3 columns still parses to Success, with an empty
plaintiff, defendant "N/A" and both date fields unset. -/
theorem C10_short_row_parses_success (m : Markup) (s : List String)
    (rows : List (List Cell)) (h1 : hasNoRecordPhrase m.raw = false)
    (h2 : m.table = some rows) (h3 : 2 ≤ rows.length)
    (h4 : (firstDataRowCols m).length < 3) :
    ∃ d : CaseData, parseCaseResults m s = .success d
      ∧ d.plaintiff = "" ∧ d.defendant = "N/A"
      ∧ d.filing_date = none ∧ d.next_hearing = none := by
  have hp : partiesTextOf m = "" := by
    unfold partiesTextOf
    rw [List.getElem?_eq_none (by omega)]
  have hl : listingTextOf m = "" := by
    unfold listingTextOf
    rw [List.getElem?_eq_none (by omega)]
  have key : parseCaseResults m s = .success
      (CaseData.mk "" "N/A" none none "Active"
        ((extractPdfsEnhanced (firstDataRowCols m) s m.allHrefs).map
          (fun u => OrderLink.mk none "Order" u)) m.raw) := by
    unfold parseCaseResults
    rw [h1, h2, hp, hl]
    simp only [Bool.false_eq_true, if_false]
    rw [if_neg (by omega : ¬ rows.length < 2)]
    rfl
  exact ⟨_, key, rfl, rfl, rfl, rfl⟩

/-- A table with two rows whose data row has a single column. -/
def c10Markup : Markup := ⟨"<html>x</html>", some [[], [⟨"only one col", []⟩]], []⟩

/-- C10 witness: the short-row markup parses to Success with empty plaintiff,
defendant "N/A" and no dates. -/
theorem C10_short_row_witness :
    ∃ d : CaseData, parseCaseResults c10Markup [] = .success d
      ∧ d.plaintiff = "" ∧ d.defendant = "N/A"
      ∧ d.filing_date = none ∧ d.next_hearing = none :=
  C10_short_row_parses_success c10Markup [] [[], [⟨"only one col", []⟩]]
    (by decide) rfl (by decide) (by decide)

/-- Whether an event is a driver-setup attempt. -/
def isSetupEv : Ev → Bool
  | .setupTry _ => true
  | _ => false

/-- Whether an event is an inter-retry backoff sleep. -/
def isBackoffEv : Ev → Bool
  | .backoffSleep _ => true
  | _ => false

/-- A world in which driver acquisition always fails before a driver object
exists. -/
def c2FailBehavior : AttemptBehavior :=
  ⟨.failNoDriver, .ok, true, [], "", true, true, ⟨"", none, []⟩, []⟩

/-- C2 counterexample: with max_retries 3 and acquisition failing on every
attempt, scrape performs exactly 3 setup attempts and returns a Failure, but
the trace holds not a single backoff sleep: consecutive attempts are not
separated by the configured backoff, because the setup-failure continue of
line 84 skips the inter-retry sleep of line 139. -/
theorem C2_counterexample :
    (scrape_case_data 3 5 (fun _ => c2FailBehavior)).result
        = .failure "All scraping attempts failed"
    ∧ ((scrape_case_data 3 5 (fun _ => c2FailBehavior)).events.filter isSetupEv).length = 3
    ∧ ¬ 1 ≤ ((scrape_case_data 3 5 (fun _ => c2FailBehavior)).events.filter isBackoffEv).length := by
  decide

/-- C2 (amended): if the session driver fails to acquire on every attempt,
scrape returns a Failure after exactly max_retries acquisition attempts, and
no backoff separates consecutive attempts: the trace is exactly max_retries
failed setup events and nothing else. -/
theorem C2_retry_bound_no_backoff (maxRetries reqDelay : Nat)
    (behaviors : Nat → AttemptBehavior)
    (hfail : ∀ i, (behaviors i).setup ≠ SetupOutcome.ok) :
    (scrape_case_data maxRetries reqDelay behaviors).result
        = .failure "All scraping attempts failed"
    ∧ (scrape_case_data maxRetries reqDelay behaviors).events
        = List.replicate maxRetries (Ev.setupTry false) := by
  have main : ∀ (fuel attempt : Nat) (drv : Bool),
      (scrapeGo reqDelay behaviors attempt fuel drv).result
          = .failure "All scraping attempts failed"
      ∧ (scrapeGo reqDelay behaviors attempt fuel drv).events
          = List.replicate fuel (Ev.setupTry false) := by
    intro fuel
    induction fuel with
    | zero => exact fun attempt drv => ⟨rfl, rfl⟩
    | succ n ih =>
      intro attempt drv
      cases hs : (behaviors attempt).setup with
      | ok => exact absurd hs (hfail attempt)
      | failNoDriver =>
        have hrun : runAttempt (behaviors attempt) (decide (n = 0)) reqDelay drv
            = ⟨.continued, [.setupTry false], drv⟩ := by
          unfold runAttempt
          rw [hs]
        obtain ⟨ihr, ihe⟩ := ih (attempt + 1) drv
        constructor
        · simp only [scrapeGo, hrun]
          exact ihr
        · simp only [scrapeGo, hrun]
          rw [ihe, List.replicate_succ]
          rfl
      | failWithDriver =>
        have hrun : runAttempt (behaviors attempt) (decide (n = 0)) reqDelay drv
            = ⟨.continued, [.setupTry false], true⟩ := by
          unfold runAttempt
          rw [hs]
        obtain ⟨ihr, ihe⟩ := ih (attempt + 1) true
        constructor
        · simp only [scrapeGo, hrun]
          exact ihr
        · simp only [scrapeGo, hrun]
          rw [ihe, List.replicate_succ]
          rfl
  exact main maxRetries 0 false

/-- C2 witness: two attempts of always-failing acquisition give the generic
failure and a trace of exactly two setup events. -/
theorem C2_retry_bound_witness :
    (scrape_case_data 2 7 (fun _ => c2FailBehavior)).result
        = .failure "All scraping attempts failed"
    ∧ (scrape_case_data 2 7 (fun _ => c2FailBehavior)).events
        = List.replicate 2 (Ev.setupTry false) :=
  C2_retry_bound_no_backoff 2 7 (fun _ => c2FailBehavior)
    (fun _ => by show c2FailBehavior.setup ≠ SetupOutcome.ok; decide)

/-- C3 (amended): on every exit path of an attempt whose driver acquisition
succeeded — normal completion, stage failure, timeout, unexpected exception —
the driver is released before the attempt ends; and release is idempotent and
safe when no session is live.  (The partially-failed-acquisition path is the
counterexample.) -/
theorem C3_release_after_acquisition (b : AttemptBehavior) (isLast : Bool)
    (reqDelay : Nat) (drv : Bool) (hsetup : b.setup = SetupOutcome.ok) :
    (runAttempt b isLast reqDelay drv).driverLive = false
    ∧ Ev.closeDriver ∈ (runAttempt b isLast reqDelay drv).events
    ∧ closeDriverState (closeDriverState drv) = closeDriverState drv
    ∧ closeDriverState false = false := by
  obtain ⟨st, nav, fillOk, ctexts, csrc, cfill, subOk, mk, ords⟩ := b
  dsimp only at hsetup
  subst hsetup
  refine ⟨?_, ?_, rfl, rfl⟩ <;>
  · cases nav with
    | timeoutExc => cases isLast <;> simp [runAttempt]
    | otherExc msg => cases isLast <;> simp [runAttempt]
    | ok =>
      simp only [runAttempt]
      repeat' split
      all_goals simp

/-- A world whose attempt acquires the driver and then times out navigating. -/
def c3OkBehavior : AttemptBehavior :=
  ⟨.ok, .timeoutExc, false, [], "", false, false, ⟨"", none, []⟩, []⟩

/-- C3 witness: a timed-out attempt with successful acquisition releases the
driver, and release is idempotent from a live handle and safe on a dead one. -/
theorem C3_release_witness :
    (runAttempt c3OkBehavior true 5 true).driverLive = false
    ∧ Ev.closeDriver ∈ (runAttempt c3OkBehavior true 5 true).events
    ∧ closeDriverState (closeDriverState true) = closeDriverState true
    ∧ closeDriverState false = false :=
  C3_release_after_acquisition c3OkBehavior true 5 true rfl

/-- A world whose attempt creates a driver object but whose setup then fails
(the execute_script of line 58 raising), leaving self.driver live. -/
def c3LeakBehavior : AttemptBehavior :=
  ⟨.failWithDriver, .ok, true, [], "", true, true, ⟨"", none, []⟩, []⟩

/-- C3 counterexample: an attempt with a partially failed driver acquisition
ends with the session still live and no release performed during the attempt,
because the continue of line 84 bypasses the try/finally. -/
theorem C3_counterexample :
    (runAttempt c3LeakBehavior false 5 false).driverLive = true
    ∧ Ev.closeDriver ∉ (runAttempt c3LeakBehavior false 5 false).events := by
  decide

/-- How a retry-loop iteration exits does not depend on whether a stale
driver handle was left in self.driver beforehand. -/
theorem runAttempt_exit_indep (b : AttemptBehavior) (isLast : Bool) (reqDelay : Nat)
    (d1 d2 : Bool) :
    (runAttempt b isLast reqDelay d1).exit = (runAttempt b isLast reqDelay d2).exit := by
  obtain ⟨st, nav, fillOk, ctexts, csrc, cfill, subOk, mku, ords⟩ := b
  cases st <;> rfl

/-- An attempt that gets through setup, navigation, filling, CAPTCHA and
submission and whose parse fails returns that parse failure when it is the
final attempt. -/
theorem runAttempt_final_parse_failure (b : AttemptBehavior) (reqDelay : Nat)
    (drv : Bool) (e : String) (hsetup : b.setup = SetupOutcome.ok)
    (hnav : b.nav = NavOutcome.ok) (hfill : b.fillOk = true)
    (hcap : (handleCaptchaEnhanced b.captchaTexts b.captchaSource
        b.captchaInputFillable).ok = true)
    (hsub : b.submitOk = true)
    (hp : parseCaseResults b.markup b.ordersPagePdfs = .failure e) :
    (runAttempt b true reqDelay drv).exit = .returned (.failure e) := by
  obtain ⟨st, nav, fillOk, ctexts, csrc, cfill, subOk, mku, ords⟩ := b
  dsimp only at hsetup hnav hfill hcap hsub hp
  subst hsetup hnav hfill hsub
  simp only [runAttempt, hp, hcap]
  simp

/-- Behaviour of the retry loop when every iteration strictly before the
final one does not return and the final iteration returns r: the loop's
result is r. -/
theorem scrapeGo_returns_final (reqDelay : Nat) (behaviors : Nat → AttemptBehavior)
    (n : Nat) (r : ParseResult)
    (hprev : ∀ i, i < n → ∀ q,
      (runAttempt (behaviors i) false reqDelay false).exit ≠ AttemptExit.returned q)
    (hfin : (runAttempt (behaviors n) true reqDelay false).exit = AttemptExit.returned r) :
    ∀ (fuel attempt : Nat) (drv : Bool), attempt + fuel = n + 1 → 1 ≤ fuel →
      (scrapeGo reqDelay behaviors attempt fuel drv).result = r := by
  intro fuel
  induction fuel with
  | zero => intro attempt drv hsum h1; omega
  | succ k ih =>
    intro attempt drv hsum h1
    by_cases hk : k = 0
    · subst hk
      have ha : attempt = n := by omega
      subst ha
      have hex : (runAttempt (behaviors attempt) true reqDelay drv).exit
          = AttemptExit.returned r :=
        (runAttempt_exit_indep (behaviors attempt) true reqDelay drv false).trans hfin
      simp only [scrapeGo, decide_True]
      rw [hex]
    · have hl : decide (k = 0) = false := decide_eq_false_iff_not.mpr hk
      have hlt : attempt < n := by omega
      simp only [scrapeGo, hl]
      cases hex : (runAttempt (behaviors attempt) false reqDelay drv).exit with
      | returned q =>
        exact absurd ((runAttempt_exit_indep (behaviors attempt) false reqDelay
          false drv).trans hex) (hprev attempt hlt q)
      | continued =>
        simp only [hex]
        exact ih (attempt + 1) _ (by omega) (by omega)
      | fellThrough =>
        simp only [hex]
        exact ih (attempt + 1) _ (by omega) (by omega)

/-- C7: when the final retry attempt's parse yields the no-record failure,
scrape returns that failure as-is, not the generic exhaustion error, provided
no earlier attempt returned. -/
theorem C7_no_record_passthrough (n reqDelay : Nat)
    (behaviors : Nat → AttemptBehavior)
    (hprev : ∀ i, i < n → ∀ q,
      (runAttempt (behaviors i) false reqDelay false).exit ≠ AttemptExit.returned q)
    (hsetup : (behaviors n).setup = SetupOutcome.ok)
    (hnav : (behaviors n).nav = NavOutcome.ok)
    (hfill : (behaviors n).fillOk = true)
    (hcap : (handleCaptchaEnhanced (behaviors n).captchaTexts (behaviors n).captchaSource
        (behaviors n).captchaInputFillable).ok = true)
    (hsub : (behaviors n).submitOk = true)
    (hnr : hasNoRecordPhrase (behaviors n).markup.raw = true) :
    (scrape_case_data (n + 1) reqDelay behaviors).result
      = .failure "No record found for the specified case." := by
  have hparse : parseCaseResults (behaviors n).markup (behaviors n).ordersPagePdfs
      = .failure "No record found for the specified case." := by
    unfold parseCaseResults
    rw [hnr]
    simp
  exact scrapeGo_returns_final reqDelay behaviors n _ hprev
    (runAttempt_final_parse_failure (behaviors n) reqDelay false _ hsetup hnav hfill
      hcap hsub hparse) (n + 1) 0 false (by omega) (by omega)

/-- A first attempt that fails at form filling. -/
def c7FirstBehavior : AttemptBehavior :=
  ⟨.ok, .ok, false, [], "", false, false, ⟨"", none, []⟩, []⟩

/-- A final attempt whose page announces that no record was found. -/
def c7FinalBehavior : AttemptBehavior :=
  ⟨.ok, .ok, true, [], "", true, true, ⟨"Sorry: No Record Found.", none, []⟩, []⟩

/-- The world of the C7 witness run. -/
def c7Behaviors : Nat → AttemptBehavior :=
  fun i => if i = 0 then c7FirstBehavior else c7FinalBehavior

/-- C7 witness: a two-attempt run whose first attempt fails filling and whose
final attempt sees a no-record page returns the no-record failure itself. -/
theorem C7_no_record_witness :
    (scrape_case_data 2 5 c7Behaviors).result
      = .failure "No record found for the specified case." :=
  C7_no_record_passthrough 1 5 c7Behaviors
    (by
      intro i hi q hcon
      have hi0 : i = 0 := by omega
      subst hi0
      have he : (runAttempt (c7Behaviors 0) false 5 false).exit = AttemptExit.continued := rfl
      rw [he] at hcon
      exact AttemptExit.noConfusion hcon)
    rfl rfl rfl (by decide) rfl (by decide)

/-- C9: when no candidate element has purely numeric stripped text of length
at least 3 and the raw-markup regex scan finds no short numeric span, CAPTCHA
resolution succeeds trivially without writing anything, and the attempt
proceeds to the submit stage. -/
theorem C9_no_captcha_proceeds (b : AttemptBehavior) (isLast : Bool) (reqDelay : Nat)
    (drv : Bool) (hsetup : b.setup = SetupOutcome.ok) (hnav : b.nav = NavOutcome.ok)
    (hfill : b.fillOk = true)
    (helem : ∀ t ∈ b.captchaTexts, isCaptchaCandidate t = false)
    (hsrc : findSpanNumber b.captchaSource.data = none) :
    handleCaptchaEnhanced b.captchaTexts b.captchaSource b.captchaInputFillable
        = ⟨true, none⟩
    ∧ Ev.submitStage ∈ (runAttempt b isLast reqDelay drv).events := by
  obtain ⟨st, nav, fillOk, ctexts, csrc, cfill, subOk, mku, ords⟩ := b
  dsimp only at hsetup hnav hfill helem hsrc ⊢
  subst hsetup hnav hfill
  have hfind : findCaptchaText ctexts = none := by
    unfold findCaptchaText
    rw [List.find?_eq_none.mpr (fun x hx => by rw [helem x hx]; exact Bool.false_ne_true)]
    rfl
  have hcap : handleCaptchaEnhanced ctexts csrc cfill = ⟨true, none⟩ := by
    unfold handleCaptchaEnhanced
    rw [hfind, hsrc]
  refine ⟨hcap, ?_⟩
  simp only [runAttempt, hcap]
  repeat' split
  all_goals simp_all

/-- A session exposing no numeric challenge: candidate texts are non-numeric
or too short, and the page source has no 3-to-6-digit span. -/
def c9Behavior : AttemptBehavior :=
  ⟨.ok, .ok, true, ["abc", "12"], "<span>12</span> <div>999</div>", true, true,
    ⟨"", none, []⟩, []⟩

/-- C9 witness: the challenge-free session resolves CAPTCHA as a trivial
success with no write and its attempt reaches the submit stage. -/
theorem C9_no_captcha_witness :
    handleCaptchaEnhanced c9Behavior.captchaTexts c9Behavior.captchaSource
        c9Behavior.captchaInputFillable = ⟨true, none⟩
    ∧ Ev.submitStage ∈ (runAttempt c9Behavior false 5 false).events :=
  C9_no_captcha_proceeds c9Behavior false 5 false rfl rfl rfl (by decide) (by decide)

/-- Splitting never produces an empty piece list (Python split always yields
at least one piece). -/
theorem splitVS_ne_nil (l : List Char) : splitVS l ≠ [] := by
  induction l using splitVS.induct with
  | case1 => simp [splitVS]
  | case2 rest ih => simp [splitVS]
  | case3 c rest hne hnil ih =>
    rw [splitVS.eq_def]
    split
    · simp
    · simp
    · rename_i hne2
      split <;> simp
  | case4 c rest hne p ps hcons ih =>
    rw [splitVS.eq_def]
    split
    · simp
    · simp
    · rename_i hne2
      split <;> simp

/-- Unfolding of splitVS at a head position where the separator does not
start: the head character is prepended to the first piece of the tail. -/
theorem splitVS_cons_no_sep (c : Char) (rest : List Char)
    (h : startsWithL vsSep (c :: rest) = false) (p : List Char)
    (ps : List (List Char)) (hrest : splitVS rest = p :: ps) :
    splitVS (c :: rest) = (c :: p) :: ps := by
  rw [splitVS.eq_def]
  split
  · rename_i heq
    exact absurd heq (by simp)
  · rename_i rest1 heq
    obtain ⟨hc, hr⟩ := List.cons.inj heq
    subst hc
    subst hr
    simp [startsWithL, vsSep] at h
  · rename_i c2 rest2 hne2 heq
    obtain ⟨hc, hr⟩ := List.cons.inj heq
    subst hc
    subst hr
    rw [hrest]

/-- A list free of the separator splits into the single piece that is the
whole list. -/
theorem splitVS_no_sep (l : List Char) :
    containsSubL vsSep l = false → splitVS l = [l] := by
  induction l using splitVS.induct with
  | case1 => intro h; rfl
  | case2 rest ih =>
    intro h
    exfalso
    simp [containsSubL, startsWithL, vsSep] at h
  | case3 c rest hne hnil ih =>
    intro h
    exfalso
    rw [containsSubL, Bool.or_eq_false_iff] at h
    have hx := ih h.2
    rw [hnil] at hx
    exact List.noConfusion hx
  | case4 c rest hne p ps hcons ih =>
    intro h
    rw [containsSubL, Bool.or_eq_false_iff] at h
    have hr : splitVS rest = [rest] := ih h.2
    rw [hcons] at hr
    obtain ⟨hp, hps⟩ := List.cons.inj hr
    rw [splitVS_cons_no_sep c rest h.1 p ps hcons, hp, hps]

/-- The separator occurring anywhere makes the containment test true. -/
theorem containsSubL_sep_append (ua ub : List Char) :
    containsSubL vsSep (ua ++ 'V' :: 'S' :: '.' :: ub) = true := by
  induction ua with
  | nil => simp [containsSubL, startsWithL, vsSep]
  | cons c ua' ih =>
    rw [List.cons_append, containsSubL, ih]
    simp

/-- Splitting a list of the form prefix-separator-tail, with the prefix free
of the separator, cuts exactly at the separator. -/
theorem splitVS_append_sep (ua tail : List Char) :
    containsSubL vsSep ua = false →
    splitVS (ua ++ 'V' :: 'S' :: '.' :: tail) = ua :: splitVS tail := by
  induction ua with
  | nil => intro h; rfl
  | cons c ua' ih =>
    intro h
    rw [containsSubL, Bool.or_eq_false_iff] at h
    have hsw : startsWithL vsSep (c :: (ua' ++ 'V' :: 'S' :: '.' :: tail)) = false := by
      have h1 := h.1
      cases ua' with
      | nil => simp [startsWithL, vsSep]
      | cons d ua'' =>
        cases ua'' with
        | nil => simp [startsWithL, vsSep]
        | cons e ua''' =>
          simp only [startsWithL, vsSep, List.cons_append] at h1 ⊢
          split_ifs at h1 ⊢ <;> simp_all [startsWithL]
    have htail : splitVS (ua' ++ 'V' :: 'S' :: '.' :: tail) = ua' :: splitVS tail :=
      ih h.2
    rw [List.cons_append, splitVS_cons_no_sep c _ hsw _ _ htail]

/-- Concatenation of Strings concatenates their character data. -/
theorem str_data_append (a b : String) : (a ++ b).data = a.data ++ b.data := rfl

/-- C4 counterexample: for the parties text "john vs. state" the code yields
the uppercased pieces ("JOHN", "STATE"), not the text before and after the
separator ("john", "state") as the claim states. -/
theorem C4_counterexample :
    parsePartiesText "john vs. state" = ("JOHN", "STATE")
    ∧ ("JOHN" : String) ≠ "john" ∧ ("STATE" : String) ≠ "state" := by
  decide

/-- C4 (amended): the parser uppercases the parties text and splits that on
"VS.": when the text is a prefix, a case-insensitive separator and a suffix,
with neither uppercased prefix nor uppercased suffix containing "VS.", the
plaintiff is the trimmed uppercased prefix and the defendant the trimmed
uppercased suffix; with no separator the plaintiff is the original text
verbatim and the defendant is "N/A"; in particular "JOHN DOE VS. STATE OF
DELHI" yields plaintiff "JOHN DOE" and defendant "STATE OF DELHI". -/
theorem C4_parties_split :
    (∀ a sep0 b : String, upperStr sep0 = "VS." →
      containsSubL vsSep (upperStr a).data = false →
      containsSubL vsSep (upperStr b).data = false →
      parsePartiesText (a ++ sep0 ++ b)
        = (String.mk (stripL (upperStr a).data), String.mk (stripL (upperStr b).data)))
    ∧ (∀ t : String, containsSubL vsSep (upperStr t).data = false →
      parsePartiesText t = (t, "N/A"))
    ∧ parsePartiesText "JOHN DOE VS. STATE OF DELHI" = ("JOHN DOE", "STATE OF DELHI") := by
  refine ⟨?_, ?_, by decide⟩
  · intro a sep0 b hsep ha hb
    have hsepd : sep0.data.map Char.toUpper = ['V', 'S', '.'] := congrArg String.data hsep
    have hdata : (upperStr (a ++ sep0 ++ b)).data
        = (upperStr a).data ++ 'V' :: 'S' :: '.' :: (upperStr b).data := by
      show ((a ++ sep0 ++ b).data.map Char.toUpper) = _
      rw [str_data_append, str_data_append, List.map_append, List.map_append, hsepd,
        List.append_assoc]
      rfl
    have hsplit : splitVS (upperStr (a ++ sep0 ++ b)).data
        = (upperStr a).data :: [(upperStr b).data] := by
      rw [hdata, splitVS_append_sep _ _ ha, splitVS_no_sep _ hb]
    have hcond : containsSub (upperStr (a ++ sep0 ++ b)) "VS." = true := by
      show containsSubL vsSep (upperStr (a ++ sep0 ++ b)).data = true
      rw [hdata]
      exact containsSubL_sep_append _ _
    simp only [parsePartiesText, hcond, if_true, hsplit]
    rfl
  · intro t ht
    have hcond : containsSub (upperStr t) "VS." = false := ht
    simp only [parsePartiesText, hcond]
    simp

/-- C4 witness: a lowercase prefix-separator-suffix text splits into the
trimmed uppercased pieces. -/
theorem C4_parties_split_witness :
    parsePartiesText ("john doe " ++ "vs." ++ " state of delhi")
      = (String.mk (stripL (upperStr "john doe ").data),
         String.mk (stripL (upperStr " state of delhi").data)) :=
  C4_parties_split.1 "john doe " "vs." " state of delhi" (by decide) (by decide) (by decide)

/-- The Python dedup loop with any starting accumulator appends the
first-occurrence dedup of the yet-unseen elements. -/
theorem dedup_foldl_eq (l : List String) : ∀ acc : List String,
    l.foldl (fun acc u => if u ∈ acc then acc else acc ++ [u]) acc
      = acc ++ keepFirst (l.filter (fun y => decide (y ∉ acc))) := by
  induction l with
  | nil => intro acc; simp [keepFirst]
  | cons u rest ih =>
    intro acc
    rw [List.foldl_cons, List.filter_cons]
    by_cases hu : u ∈ acc
    · rw [if_pos hu, if_neg (by simp [hu])]
      exact ih acc
    · rw [if_neg hu, if_pos (by simp [hu]), ih (acc ++ [u]), keepFirst,
        List.filter_filter, List.append_assoc]
      have hfil : rest.filter (fun y => decide (y ∉ acc ++ [u]))
          = rest.filter (fun a => decide (a ≠ u) && decide (a ∉ acc)) := by
        apply List.filter_congr
        intro x _
        by_cases hxu : x = u
        · simp [hxu]
        · by_cases hxa : x ∈ acc <;> simp [hxu, hxa]
      rw [hfil]
      rfl

/-- The code's dedup agrees with first-occurrence dedup. -/
theorem dedupKeepFirst_eq (l : List String) : dedupKeepFirst l = keepFirst l := by
  have h := dedup_foldl_eq l []
  simpa [dedupKeepFirst, List.not_mem_nil] using h

/-- First-occurrence dedup holds each element of the input exactly once. -/
theorem count_keepFirst (x : String) (l : List String) :
    (keepFirst l).count x = if x ∈ l then 1 else 0 := by
  induction l using keepFirst.induct with
  | case1 => simp [keepFirst]
  | case2 x0 xs ih =>
    rw [keepFirst, List.count_cons, ih]
    by_cases hx : x = x0
    · subst hx
      rw [if_neg (by simp), if_pos (List.mem_cons_self x xs)]
      simp
    · by_cases hmem : x ∈ xs
      · rw [if_pos (by simp [List.mem_filter, hmem, hx]),
          if_pos (List.mem_cons_of_mem x0 hmem)]
        rw [beq_eq_false_iff_ne.mpr (Ne.symm hx)]
        simp
      · rw [if_neg (by simp [List.mem_filter, hmem])]
        rw [beq_eq_false_iff_ne.mpr (Ne.symm hx)]
        simp [List.mem_cons, hx, hmem]

/-- First-occurrence dedup preserves the relative order of the input. -/
theorem keepFirst_sublist (l : List String) : (keepFirst l).Sublist l := by
  induction l using keepFirst.induct with
  | case1 => simp [keepFirst]
  | case2 x0 xs ih =>
    rw [keepFirst]
    exact (ih.trans (List.filter_sublist xs)).cons₂ x0

/-- A first data row in which the same PDF link appears three times across
different cells, beside one other link. -/
def c6Cols : List Cell :=
  [Cell.mk "" ["/orders/a.pdf"],
   Cell.mk "" ["/orders/b.pdf", "/orders/a.pdf"],
   Cell.mk "" ["/orders/a.pdf"]]

/-- C6: the extracted orders list holds each distinct resolved URL exactly
once, in first-occurrence order: the code dedup equals first-occurrence
dedup, counts are one per distinct member, relative order is preserved, and
the triple-repeated link of the fixture row appears exactly once, at its
first-seen position. -/
theorem C6_order_link_dedup :
    (∀ l : List String, dedupKeepFirst l = keepFirst l)
    ∧ (∀ (l : List String) (x : String),
        (dedupKeepFirst l).count x = if x ∈ l then 1 else 0)
    ∧ (∀ l : List String, (dedupKeepFirst l).Sublist l)
    ∧ extractPdfsEnhanced c6Cols [] []
        = ["https://delhihighcourt.nic.in/orders/a.pdf",
           "https://delhihighcourt.nic.in/orders/b.pdf"] := by
  refine ⟨dedupKeepFirst_eq, ?_, ?_, by decide⟩
  · intro l x
    rw [dedupKeepFirst_eq]
    exact count_keepFirst x l
  · intro l
    rw [dedupKeepFirst_eq]
    exact keepFirst_sublist l

/-- A list free of the separator character is one whole piece. -/
theorem splitChar_no_sep (sep : Char) (l : List Char) :
    (∀ c ∈ l, c ≠ sep) → splitChar sep l = [l] := by
  induction l with
  | nil => intro h; rfl
  | cons c rest ih =>
    intro h
    rw [splitChar, if_neg (h c (List.mem_cons_self c rest)),
      ih (fun d hd => h d (List.mem_cons_of_mem c hd))]

/-- Splitting prefix-separator-tail with a separator-free prefix cuts at the
separator. -/
theorem splitChar_append_sep (sep : Char) (pre rest : List Char) :
    (∀ c ∈ pre, c ≠ sep) →
    splitChar sep (pre ++ sep :: rest) = pre :: splitChar sep rest := by
  induction pre with
  | nil =>
    intro h
    rw [List.nil_append, splitChar, if_pos rfl]
  | cons c pre2 ih =>
    intro h
    rw [List.cons_append, splitChar, if_neg (h c (List.mem_cons_self c pre2)),
      ih (fun d hd => h d (List.mem_cons_of_mem c hd))]

/-- The date rewrite on any DD/MM/YYYY-shaped character data: the year, month
and day blocks are reassembled with dashes. -/
theorem convertDate_shape (d1 d2 m1 m2 y1 y2 y3 y4 : Char)
    (hd1 : d1.isDigit = true) (hd2 : d2.isDigit = true)
    (hm1 : m1.isDigit = true) (hm2 : m2.isDigit = true)
    (hy1 : y1.isDigit = true) (hy2 : y2.isDigit = true)
    (hy3 : y3.isDigit = true) (hy4 : y4.isDigit = true) :
    convertDate (String.mk [d1, d2, '/', m1, m2, '/', y1, y2, y3, y4])
      = String.mk [y1, y2, y3, y4, '-', m1, m2, '-', d1, d2] := by
  have hne : ∀ c : Char, c.isDigit = true → c ≠ '/' := by
    intro c hc hcc
    subst hcc
    exact absurd hc (by decide)
  have hsplit : splitChar '/' [d1, d2, '/', m1, m2, '/', y1, y2, y3, y4]
      = [[d1, d2], [m1, m2], [y1, y2, y3, y4]] := by
    have e1 : [d1, d2, '/', m1, m2, '/', y1, y2, y3, y4]
        = [d1, d2] ++ '/' :: ([m1, m2] ++ '/' :: [y1, y2, y3, y4]) := rfl
    rw [e1, splitChar_append_sep '/' [d1, d2] _ (by
        intro c hc
        rcases List.mem_cons.mp hc with rfl | hc2
        · exact hne c hd1
        rcases List.mem_cons.mp hc2 with rfl | hc3
        · exact hne c hd2
        · exact absurd hc3 (List.not_mem_nil c)),
      splitChar_append_sep '/' [m1, m2] _ (by
        intro c hc
        rcases List.mem_cons.mp hc with rfl | hc2
        · exact hne c hm1
        rcases List.mem_cons.mp hc2 with rfl | hc3
        · exact hne c hm2
        · exact absurd hc3 (List.not_mem_nil c)),
      splitChar_no_sep '/' [y1, y2, y3, y4] (by
        intro c hc
        rcases List.mem_cons.mp hc with rfl | hc2
        · exact hne c hy1
        rcases List.mem_cons.mp hc2 with rfl | hc3
        · exact hne c hy2
        rcases List.mem_cons.mp hc3 with rfl | hc4
        · exact hne c hy3
        rcases List.mem_cons.mp hc4 with rfl | hc5
        · exact hne c hy4
        · exact absurd hc5 (List.not_mem_nil c))]
  unfold convertDate
  rw [show (String.mk [d1, d2, '/', m1, m2, '/', y1, y2, y3, y4]).data
      = [d1, d2, '/', m1, m2, '/', y1, y2, y3, y4] from rfl, hsplit]
  rfl

/-- Containment holds when the pattern starts the list. -/
theorem containsSubL_of_startsWith (pat l : List Char)
    (h : startsWithL pat l = true) : containsSubL pat l = true := by
  cases l with
  | nil => exact h
  | cons c rest =>
    rw [containsSubL, h]
    rfl

/-- Containment is preserved by extending the list on the left by one. -/
theorem containsSubL_cons_of (pat : List Char) (c : Char) (rest : List Char)
    (h : containsSubL pat rest = true) : containsSubL pat (c :: rest) = true := by
  rw [containsSubL, h]
  simp

/-- Containment is preserved by any extension of the list on the left. -/
theorem containsSubL_append_right (pat l1 l2 : List Char)
    (h : containsSubL pat l2 = true) : containsSubL pat (l1 ++ l2) = true := by
  induction l1 with
  | nil => simpa using h
  | cons c t ih =>
    rw [List.cons_append]
    exact containsSubL_cons_of _ _ _ ih

/-- Soundness of the date scan: every extracted piece is a ten-character
DD/MM/YYYY-shaped string occurring as a contiguous substring of the input. -/
theorem findDatesL_mem (l : List Char) :
    ∀ d, d ∈ findDatesL l →
      (d.length = 10 ∧ dateShapedAt d = true) ∧ containsSubL d l = true := by
  induction l using findDatesL.induct with
  | case1 d1 d2 s1 m1 m2 s2 y1 y2 y3 y4 rest hshape ih =>
    intro d hd
    have heq : findDatesL (d1 :: d2 :: s1 :: m1 :: m2 :: s2 :: y1 :: y2 :: y3 :: y4 :: rest)
        = [d1, d2, s1, m1, m2, s2, y1, y2, y3, y4] :: findDatesL rest := by
      simp [findDatesL, hshape]
    rw [heq] at hd
    rcases List.mem_cons.mp hd with hd1 | hd2
    · subst hd1
      refine ⟨⟨rfl, hshape⟩, ?_⟩
      exact containsSubL_of_startsWith _ _ (by simp [startsWithL])
    · obtain ⟨hs, hc⟩ := ih d hd2
      refine ⟨hs, ?_⟩
      have e : d1 :: d2 :: s1 :: m1 :: m2 :: s2 :: y1 :: y2 :: y3 :: y4 :: rest
          = [d1, d2, s1, m1, m2, s2, y1, y2, y3, y4] ++ rest := rfl
      rw [e]
      exact containsSubL_append_right _ _ _ hc
  | case2 d1 d2 s1 m1 m2 s2 y1 y2 y3 y4 rest hshape ih =>
    intro d hd
    have heq : findDatesL (d1 :: d2 :: s1 :: m1 :: m2 :: s2 :: y1 :: y2 :: y3 :: y4 :: rest)
        = findDatesL (d2 :: s1 :: m1 :: m2 :: s2 :: y1 :: y2 :: y3 :: y4 :: rest) := by
      simp [findDatesL, hshape]
    rw [heq] at hd
    obtain ⟨hs, hc⟩ := ih d hd
    exact ⟨hs, containsSubL_cons_of _ _ _ hc⟩
  | case3 head rest hne ih =>
    intro d hd
    have heq : findDatesL (head :: rest) = findDatesL rest := by
      rw [findDatesL.eq_def]
      split
      · rename_i d1 d2 s1 m1 m2 s2 y1 y2 y3 y4 rest1 heq2
        obtain ⟨h1, h2⟩ := List.cons.inj heq2
        exact absurd h2 (fun hh => hne d2 s1 m1 m2 s2 y1 y2 y3 y4 rest1 hh)
      · rename_i head2 rest2 hne2 heq2
        obtain ⟨h1, h2⟩ := List.cons.inj heq2
        rw [h2]
      · rename_i heq2
        exact absurd heq2 (by simp)
    rw [heq] at hd
    obtain ⟨hs, hc⟩ := ih d hd
    exact ⟨hs, containsSubL_cons_of _ _ _ hc⟩
  | case4 =>
    intro d hd
    exact absurd hd (List.not_mem_nil d)

/-- Completeness of the empty case: an input in which no position starts a
DD/MM/YYYY shape yields no dates at all. -/
theorem findDatesL_eq_nil (l : List Char) :
    (∀ t, t <:+ l → dateShapedAt t = false) → findDatesL l = [] := by
  induction l using findDatesL.induct with
  | case1 d1 d2 s1 m1 m2 s2 y1 y2 y3 y4 rest hshape ih =>
    intro h
    exact absurd (h _ (List.suffix_refl _)) (by rw [hshape]; decide)
  | case2 d1 d2 s1 m1 m2 s2 y1 y2 y3 y4 rest hshape ih =>
    intro h
    have heq : findDatesL (d1 :: d2 :: s1 :: m1 :: m2 :: s2 :: y1 :: y2 :: y3 :: y4 :: rest)
        = findDatesL (d2 :: s1 :: m1 :: m2 :: s2 :: y1 :: y2 :: y3 :: y4 :: rest) := by
      simp [findDatesL, hshape]
    rw [heq]
    exact ih (fun t ht => h t (ht.trans (List.suffix_cons d1 _)))
  | case3 head rest hne ih =>
    intro h
    have heq : findDatesL (head :: rest) = findDatesL rest := by
      rw [findDatesL.eq_def]
      split
      · rename_i d1 d2 s1 m1 m2 s2 y1 y2 y3 y4 rest1 heq2
        obtain ⟨h1, h2⟩ := List.cons.inj heq2
        exact absurd h2 (fun hh => hne d2 s1 m1 m2 s2 y1 y2 y3 y4 rest1 hh)
      · rename_i head2 rest2 hne2 heq2
        obtain ⟨h1, h2⟩ := List.cons.inj heq2
        rw [h2]
      · rename_i heq2
        exact absurd heq2 (by simp)
    rw [heq]
    exact ih (fun t ht => h t (ht.trans (List.suffix_cons head rest)))
  | case4 => intro h; rfl

/-- The shape of every successful parse: under the no-record, table-found and
enough-rows conditions, the parser builds the success record from the first
data row. -/
theorem parse_success_form (m : Markup) (s : List String) (rows : List (List Cell))
    (h1 : hasNoRecordPhrase m.raw = false) (h2 : m.table = some rows)
    (h3 : 2 ≤ rows.length) :
    parseCaseResults m s = .success (CaseData.mk
      (parsePartiesText (partiesTextOf m)).1 (parsePartiesText (partiesTextOf m)).2
      ((findDates (listingTextOf m)).head?.map convertDate)
      (((findDates (listingTextOf m))[1]?).map convertDate)
      "Active"
      ((extractPdfsEnhanced (firstDataRowCols m) s m.allHrefs).map
        (fun u => OrderLink.mk ((findDates (listingTextOf m)).head?.map convertDate) "Order" u))
      m.raw) := by
  unfold parseCaseResults
  rw [h1, h2]
  simp only [Bool.false_eq_true, if_false]
  rw [if_neg (by omega : ¬ rows.length < 2)]

/-- A result page whose listing column has one well-formed and one malformed
date. -/
def c5MalformedMarkup : Markup :=
  ⟨"x", some [[], [Cell.mk "" [], Cell.mk "" [], Cell.mk "A VS. B" [],
    Cell.mk "15/03/2023 and 31/6/2024" []]], []⟩

/-- C5: date extraction takes the DD/MM/YYYY-shaped substrings of the listing
column — the first becomes the filing date and the second, if present, the
next-hearing date — converting each to YYYY-MM-DD ("15/03/2023" becomes
"2023-03-15"); every extracted piece really is a ten-character shaped
substring; text with no shaped substring leaves both fields unset with the
parse still succeeding; and a single malformed date (fixture) leaves only its
own field unset. -/
theorem C5_date_extraction :
    (∀ d1 d2 m1 m2 y1 y2 y3 y4 : Char, d1.isDigit = true → d2.isDigit = true →
      m1.isDigit = true → m2.isDigit = true → y1.isDigit = true → y2.isDigit = true →
      y3.isDigit = true → y4.isDigit = true →
      convertDate (String.mk [d1, d2, '/', m1, m2, '/', y1, y2, y3, y4])
        = String.mk [y1, y2, y3, y4, '-', m1, m2, '-', d1, d2])
    ∧ convertDate "15/03/2023" = "2023-03-15"
    ∧ (∀ s d : String, d ∈ findDates s →
        (d.data.length = 10 ∧ dateShapedAt d.data = true)
        ∧ containsSubL d.data s.data = true)
    ∧ (∀ (m : Markup) (sess : List String) (rows : List (List Cell)),
        hasNoRecordPhrase m.raw = false → m.table = some rows → 2 ≤ rows.length →
        (parseCaseResults m sess).isSuccess = true
        ∧ (parseCaseResults m sess).filingOf
            = (findDates (listingTextOf m)).head?.map convertDate
        ∧ (parseCaseResults m sess).hearingOf
            = ((findDates (listingTextOf m))[1]?).map convertDate
        ∧ ((∀ t, t <:+ (listingTextOf m).data → dateShapedAt t = false) →
            (parseCaseResults m sess).filingOf = none
            ∧ (parseCaseResults m sess).hearingOf = none))
    ∧ ((parseCaseResults c5MalformedMarkup []).isSuccess = true
        ∧ (parseCaseResults c5MalformedMarkup []).filingOf = some "2023-03-15"
        ∧ (parseCaseResults c5MalformedMarkup []).hearingOf = none) := by
  refine ⟨convertDate_shape, by decide, ?_, ?_, by decide⟩
  · intro s d hd
    unfold findDates at hd
    rw [List.mem_map] at hd
    obtain ⟨dl, hdl, hmk⟩ := hd
    have hdata : d.data = dl := by rw [← hmk]
    rw [hdata]
    exact findDatesL_mem s.data dl hdl
  · intro m sess rows h1 h2 h3
    have key := parse_success_form m sess rows h1 h2 h3
    rw [key]
    refine ⟨rfl, rfl, rfl, ?_⟩
    intro hno
    have hnil : findDatesL (listingTextOf m).data = [] := findDatesL_eq_nil _ hno
    constructor <;> simp [ParseResult.filingOf, ParseResult.hearingOf, findDates, hnil]

/-- A result page carrying the spec scenario parties and two dates. -/
def c5Markup : Markup :=
  ⟨"results", some [[], [Cell.mk "" [], Cell.mk "" [],
    Cell.mk "JOHN DOE VS. STATE OF DELHI" [],
    Cell.mk "15/03/2023 next 20/06/2023" []]], []⟩

/-- C5 witness: the conversion applied to concrete digits, the parse-level
field wiring on a concrete fixture, and a concrete extracted shaped
substring. -/
theorem C5_date_extraction_witness :
    convertDate (String.mk ['1', '5', '/', '0', '3', '/', '2', '0', '2', '3'])
        = String.mk ['2', '0', '2', '3', '-', '0', '3', '-', '1', '5']
    ∧ ((parseCaseResults c5Markup []).isSuccess = true
        ∧ (parseCaseResults c5Markup []).filingOf
            = (findDates (listingTextOf c5Markup)).head?.map convertDate
        ∧ (parseCaseResults c5Markup []).hearingOf
            = ((findDates (listingTextOf c5Markup))[1]?).map convertDate)
    ∧ ((("15/03/2023" : String).data.length = 10
        ∧ dateShapedAt ("15/03/2023" : String).data = true)
        ∧ containsSubL ("15/03/2023" : String).data ("a 15/03/2023 b" : String).data
            = true) :=
  ⟨C5_date_extraction.1 '1' '5' '0' '3' '2' '0' '2' '3' (by decide) (by decide)
      (by decide) (by decide) (by decide) (by decide) (by decide) (by decide),
   ⟨(C5_date_extraction.2.2.2.1 c5Markup []
        [[], [Cell.mk "" [], Cell.mk "" [], Cell.mk "JOHN DOE VS. STATE OF DELHI" [],
          Cell.mk "15/03/2023 next 20/06/2023" []]] (by decide) rfl (by decide)).1,
    (C5_date_extraction.2.2.2.1 c5Markup []
        [[], [Cell.mk "" [], Cell.mk "" [], Cell.mk "JOHN DOE VS. STATE OF DELHI" [],
          Cell.mk "15/03/2023 next 20/06/2023" []]] (by decide) rfl (by decide)).2.1,
    (C5_date_extraction.2.2.2.1 c5Markup []
        [[], [Cell.mk "" [], Cell.mk "" [], Cell.mk "JOHN DOE VS. STATE OF DELHI" [],
          Cell.mk "15/03/2023 next 20/06/2023" []]] (by decide) rfl (by decide)).2.2.1⟩,
   C5_date_extraction.2.2.1 "a 15/03/2023 b" "15/03/2023" (by decide)⟩

end CourtData
